import Mathlib

/-!
Verification development for the ai-landing-platform repository.

Shallow embedding of the parts of the code base the claims concern:
* the in-memory / async content cache (`services/cache.js`, redis-backed variant),
* the cache-key construction at its three call sites
  (public landing route, `routes/api/pages.js`, `services/massGenerator.js`),
* the usage validator (`UsageValidator` in `services/cache.js`) together with
  the `User.resetUsageIfNeeded` schema method and the billing-side
  `checkGenerationLimit`,
* the service registry (`services/registry.js`): `initialize`,
  `performInitialization`, the dependency loop and `topologicalSort`.

JavaScript numbers that the code only ever uses as integers are modelled as
`Nat`/`Int`; possibly-undefined object fields as `Option`; the `x || d`
falsy-fallback idiom via explicit `jsOr*` helpers.  Asynchrony collapses to
sequential execution (the code always `await`s); wall-clock timers (backoff
delays, initialization timeouts, TTL expiry) are not modelled.
-/

set_option autoImplicit false

namespace AiLanding

/-! ### JavaScript primitive values and truthiness -/

/-- A JavaScript primitive value, enough to state the cache round-trip
properties (`undefined`, `null`, booleans, integer numbers, strings). -/
inductive JSValue where
  | undef : JSValue
  | null : JSValue
  | bool : Bool → JSValue
  | num : Int → JSValue
  | str : String → JSValue
deriving DecidableEq, Repr

/-- JavaScript truthiness on the modelled values: `undefined`, `null`,
`false`, `0` and `""` are falsy, everything else truthy. -/
def JSValue.truthy : JSValue → Bool
  | .undef => false
  | .null => false
  | .bool b => b
  | .num n => n != 0
  | .str s => s != ""

/-- The JavaScript expression `a || b` on modelled values. -/
def jsOrVal (a b : JSValue) : JSValue :=
  if a.truthy then a else b

/-- `o || d` where `o` is a possibly-undefined integer field:
`undefined` and `0` fall back to `d`. -/
def jsOrInt (o : Option Int) (d : Int) : Int :=
  match o with
  | some v => if v = 0 then d else v
  | none => d

/-- `o || d` for a possibly-undefined natural-number expression. -/
def jsOrNat (o : Option Nat) (d : Nat) : Nat :=
  match o with
  | some v => if v = 0 then d else v
  | none => d

/-! ### The in-memory cache (`services/cache.js` and the redis-backed file)

The `Map` used by the cache is modelled as an association list whose `set`
replaces in place and whose `get` returns `undefined` on a missing key. -/

/-- The in-memory `Map` backing the cache. -/
abbrev CacheMap := List (String × JSValue)

/-- `Map.prototype.set`: replace the value of an existing key in place,
otherwise append the new entry. -/
def mapSet : CacheMap → String → JSValue → CacheMap
  | [], k, v => [(k, v)]
  | (k', v') :: rest, k, v =>
    if k' = k then (k, v) :: rest else (k', v') :: mapSet rest k v

/-- `Map.prototype.get`: the stored value, `undefined` when absent. -/
def mapGet : CacheMap → String → JSValue
  | [], _ => .undef
  | (k', v') :: rest, k => if k' = k then v' else mapGet rest k

/-- `Map.prototype.has`. -/
def mapHas : CacheMap → String → Bool
  | [], _ => false
  | (k', _) :: rest, k => if k' = k then true else mapHas rest k

/-- `getFromCache(key)` — `return cache.get(key);`. -/
def getFromCache (cache : CacheMap) (key : String) : JSValue :=
  mapGet cache key

/-- `saveToCache(key, value)` — `cache.set(key, value);`. -/
def saveToCache (cache : CacheMap) (key : String) (value : JSValue) : CacheMap :=
  mapSet cache key value

/-- `getFromCacheAsync(key)` in the in-memory fallback mode
(`isRedisConnected = false`): `return memoryCache.get(key) || null;`. -/
def getFromCacheAsync (cache : CacheMap) (key : String) : JSValue :=
  jsOrVal (mapGet cache key) .null

/-- `saveToCacheAsync(key, value)` in the in-memory fallback mode: the redis
branch is skipped and `memoryCache.set(key, value)` runs; the TTL cleanup
timer is wall-clock behaviour and is not modelled. -/
def saveToCacheAsync (cache : CacheMap) (key : String) (value : JSValue) : CacheMap :=
  mapSet cache key value

/-! ### Cache-key construction at the three request origins -/

/-- The public landing route's key:
`const cacheKey = ` then `industry-lang-location-type` by template literal. -/
def publicLandingCacheKey (industry lang location ty : String) : String :=
  industry ++ "-" ++ lang ++ "-" ++ location ++ "-" ++ ty

/-- The authenticated API route's key (`routes/api/pages.js`, POST /pages):
the same template literal over the request body fields. -/
def apiPagesCacheKey (industry lang location ty : String) : String :=
  industry ++ "-" ++ lang ++ "-" ++ location ++ "-" ++ ty

/-- JavaScript's `.toLowerCase()`, modelled character-wise (ASCII case
folding via `Char.toLower`). -/
def toLowerStr (s : String) : String :=
  String.mk (s.data.map Char.toLower)

/-- The mass-generation key (`generateSinglePage` in `massGenerator.js`):
the template literal additionally appends the tenant id and the whole key is
lower-cased (`.toLowerCase()`). -/
def massGenCacheKey (industryKey lang city ty tenantId : String) : String :=
  toLowerStr (industryKey ++ "-" ++ lang ++ "-" ++ city ++ "-" ++ ty ++ "-" ++ tenantId)

/-! ### The user document and the monthly usage reset (`models/User.js`) -/

/-- A calendar instant, as far as `resetUsageIfNeeded` inspects it
(`getMonth()` and `getFullYear()`). -/
structure MDate where
  year : Int
  month : Nat
deriving DecidableEq, Repr

/-- The user document fields the usage machinery touches.
`imagesGeneratedThisMonth` is not declared in the schema and is written
dynamically by `recordUsage`, hence `Option Nat`. -/
structure User where
  generatedThisMonth : Nat
  apiCallsThisMonth : Nat
  translationsThisMonth : Nat
  imagesGeneratedThisMonth : Option Nat
  lastUsageReset : MDate
deriving DecidableEq, Repr

/-- `userSchema.methods.resetUsageIfNeeded`: when the wall-clock month or
year differs from `lastUsageReset`'s, zero the three schema counters, stamp
`lastUsageReset = now` and report `true`; otherwise report `false`. -/
def resetUsageIfNeeded (now : MDate) (u : User) : User × Bool :=
  if now.month ≠ u.lastUsageReset.month ∨ now.year ≠ u.lastUsageReset.year then
    ({ u with
        generatedThisMonth := 0
        apiCallsThisMonth := 0
        translationsThisMonth := 0
        lastUsageReset := now }, true)
  else
    (u, false)

/-! ### Plans and limits -/

/-- The `limits` sub-document of a plan.  The schema declares
`pagesPerMonth`, `industries` and `languages`; the validator and the billing
service additionally read `translationsPerMonth`, `imagesPerMonth`,
`planLevel` and `monthlyGenerations`, which JavaScript delivers as
`undefined` when absent — hence `Option`. -/
structure Limits where
  pagesPerMonth : Int
  industries : Option (List String)
  languages : Option (List String)
  translationsPerMonth : Option Int
  imagesPerMonth : Option Int
  planLevel : Option String
  monthlyGenerations : Option Int
deriving DecidableEq, Repr

/-- A plan document, as seen by the validator. -/
structure Plan where
  limits : Limits
deriving DecidableEq, Repr

/-! ### The usage validator (`UsageValidator` in `services/cache.js`) -/

/-- The `operationParams` object fields used by the per-operation checks. -/
structure OpParams where
  industry : Option String
  language : Option String
  text : Option String
  cityCount : Option Nat
  typeCount : Option Nat
deriving DecidableEq, Repr

/-- The object returned by the per-operation checks.  Fields a given return
site omits are `undefined`/absent: `reason none`, `upgradeRequired false`,
`costUnits none`. -/
structure ValidationResult where
  allowed : Bool
  reason : Option String
  remaining : Int
  upgradeRequired : Bool
  costUnits : Option Int
deriving DecidableEq, Repr

/-- Renders a possibly-undefined string the way a template literal would. -/
def optParam (o : Option String) : String :=
  o.getD "undefined"

/-- `params.industry`/`params.language` membership in an allow-list:
`list.includes(undefined)` is `false`. -/
def listIncludes (l : List String) (o : Option String) : Bool :=
  match o with
  | some s => l.contains s
  | none => false

/-- `validatePageGeneration(user, limits, params)`. -/
def validatePageGeneration (u : User) (limits : Limits) (params : OpParams) :
    ValidationResult :=
  let remaining := limits.pagesPerMonth - (u.generatedThisMonth : Int)
  if remaining ≤ 0 then
    { allowed := false, reason := some "Monthly page generation limit exceeded",
      remaining := 0, upgradeRequired := true, costUnits := none }
  else if limits.industries.isSome ∧
      ¬ listIncludes (limits.industries.getD []) params.industry then
    { allowed := false,
      reason := some ("Industry " ++ optParam params.industry ++ " not allowed in current plan"),
      remaining := remaining, upgradeRequired := true, costUnits := none }
  else if limits.languages.isSome ∧
      ¬ listIncludes (limits.languages.getD []) params.language then
    { allowed := false,
      reason := some ("Language " ++ optParam params.language ++ " not allowed in current plan"),
      remaining := remaining, upgradeRequired := true, costUnits := none }
  else
    { allowed := true, reason := none, remaining := remaining,
      upgradeRequired := false, costUnits := some 1 }

/-- `validateTranslation(user, limits, params)`:
`translationLimit = limits.translationsPerMonth || limits.pagesPerMonth * 5`,
`costUnits = Math.ceil(textLength / 1000)`. -/
def validateTranslation (u : User) (limits : Limits) (params : OpParams) :
    ValidationResult :=
  let translationLimit := jsOrInt limits.translationsPerMonth (limits.pagesPerMonth * 5)
  let remaining := translationLimit - (u.translationsThisMonth : Int)
  if remaining ≤ 0 then
    { allowed := false, reason := some "Monthly translation limit exceeded",
      remaining := 0, upgradeRequired := true, costUnits := none }
  else
    let textLength : Nat := jsOrNat (params.text.map String.length) 0
    let costUnits : Int := ((textLength + 999) / 1000 : Nat)
    if remaining < costUnits then
      { allowed := false, reason := some "Insufficient translation quota for this text length",
        remaining := remaining, upgradeRequired := true, costUnits := none }
    else
      { allowed := true, reason := none, remaining := remaining,
        upgradeRequired := false, costUnits := some costUnits }

/-- `validateImageGeneration(user, limits, params)`:
`imageLimit = limits.imagesPerMonth || Math.floor(limits.pagesPerMonth * 0.5)`,
`remaining = imageLimit - (user.imagesGeneratedThisMonth || 0)`. -/
def validateImageGeneration (u : User) (limits : Limits) (_params : OpParams) :
    ValidationResult :=
  let imageLimit := jsOrInt limits.imagesPerMonth (Int.fdiv limits.pagesPerMonth 2)
  let remaining := imageLimit - ((u.imagesGeneratedThisMonth.getD 0 : Nat) : Int)
  { allowed := decide (remaining > 0),
    reason := if remaining ≤ 0 then some "Monthly image generation limit exceeded" else none,
    remaining := remaining, upgradeRequired := false, costUnits := some 1 }

/-- `estimatedPages = params.cityCount * params.typeCount || 50`: with either
count `undefined` the product is `NaN` (falsy), and a zero product is also
falsy, so both fall back to `50`. -/
def massEstimatedPages (cityCount typeCount : Option Nat) : Int :=
  match cityCount, typeCount with
  | some c, some t => if c * t = 0 then 50 else ((c * t : Nat) : Int)
  | _, _ => 50

/-- `validateMassGeneration(user, limits, params)`. -/
def validateMassGeneration (u : User) (limits : Limits) (params : OpParams) :
    ValidationResult :=
  if limits.planLevel ≠ some "enterprise" then
    { allowed := false, reason := some "Mass generation requires Enterprise plan",
      remaining := 0, upgradeRequired := true, costUnits := none }
  else
    let estimatedPages := massEstimatedPages params.cityCount params.typeCount
    let remaining := limits.pagesPerMonth - (u.generatedThisMonth : Int)
    if remaining < estimatedPages then
      { allowed := false,
        reason := some ("Insufficient quota for mass generation (" ++ toString estimatedPages ++
          " pages required, " ++ toString remaining ++ " remaining)"),
        remaining := remaining, upgradeRequired := true, costUnits := none }
    else
      { allowed := true, reason := none, remaining := remaining,
        upgradeRequired := false, costUnits := some estimatedPages }

/-- `checkOperationLimits(user, plan, operationType, params)`. -/
def checkOperationLimits (u : User) (plan : Plan) (operationType : String)
    (params : OpParams) : ValidationResult :=
  let limits := plan.limits
  if operationType = "page_generation" then validatePageGeneration u limits params
  else if operationType = "ai_translation" then validateTranslation u limits params
  else if operationType = "image_generation" then validateImageGeneration u limits params
  else if operationType = "mass_generation" then validateMassGeneration u limits params
  else
    { allowed := false, reason := some ("Unknown operation type: " ++ operationType),
      remaining := 0, upgradeRequired := false, costUnits := none }

/-- What a `validateUsage` call produces: the validation result, the user
document it validated against (post-reset), and whether `user.save()` was
awaited to persist a reset. -/
structure UsageOutcome where
  result : ValidationResult
  user : User
  saved : Bool
deriving DecidableEq, Repr

/-- `validateUsage(user, operationType, operationParams)`: reset counters if
the month rolled over (persisting via `user.save()`), look the plan up
(`Plan.findById`, modelled as the `plan` argument), then dispatch to
`checkOperationLimits`.  The catch-all error path has no pure counterpart. -/
def validateUsage (now : MDate) (u : User) (plan : Option Plan)
    (operationType : String) (params : OpParams) : UsageOutcome :=
  let r := resetUsageIfNeeded now u
  let u1 := r.1
  let wasReset := r.2
  match plan with
  | none =>
    { result := { allowed := false, reason := some "No valid plan found",
                  remaining := 0, upgradeRequired := false, costUnits := none },
      user := u1, saved := wasReset }
  | some p =>
    { result := checkOperationLimits u1 p operationType params,
      user := u1, saved := wasReset }

/-- `BillingService.checkGenerationLimit` (in `massGenerator.js`): after the
monthly reset, `-1` in `limits.monthlyGenerations` means unlimited and allows
immediately; otherwise `currentUsage < limits.monthlyGenerations`, which is
`false` when the field is `undefined` (NaN comparison).  The user lookup and
free-plan fallback are outside the model. -/
def checkGenerationLimit (now : MDate) (u : User) (plan : Plan) : Bool :=
  let u1 := (resetUsageIfNeeded now u).1
  let currentUsage : Int := u1.generatedThisMonth
  if plan.limits.monthlyGenerations = some (-1) then
    true
  else
    match plan.limits.monthlyGenerations with
    | some m => decide (currentUsage < m)
    | none => false

/-! ### The service registry (`services/registry.js`)

The registry maps service names to their declared dependency lists
(`this.services` / `this.dependencies`, populated by `register`).  A service
instance's own `initialize()` method either resolves or rejects; the model
records that outcome per service in `selfInitOk`.  Mutable registry state is
the `initialized` set, the insertion-ordered `initializing` set, the
`metrics.failures` counter and the `initializationOrder` list.  Wall-clock
behaviour (`Promise.race` timeouts, backoff delays, health monitoring) and
the instance map are not modelled; recursion carries an explicit fuel, with
`Res.fuelOut` marking exhaustion of the model's budget (never reached by the
concrete runs below). -/

/-- The registered services: name, declared dependencies, and whether the
service instance's own `initialize()` resolves. -/
structure Reg where
  services : List (String × List String)
  selfInitOk : String → Bool

/-- `this.metadata.get(name)` is populated exactly for registered names. -/
def registered (reg : Reg) (name : String) : Bool :=
  (reg.services.lookup name).isSome

/-- `this.dependencies.get(serviceName) || []`. -/
def depsOf (reg : Reg) (name : String) : List String :=
  (reg.services.lookup name).getD []

/-- `config.maxRetries`. -/
def maxRetries : Nat := 3

/-- The mutable registry state threaded through initialization. -/
structure RegState where
  initialized : List String
  initializing : List String
  failures : Nat
  order : List String
deriving DecidableEq, Repr

/-- The registry before any `initialize` call. -/
def emptyState : RegState := ⟨[], [], 0, []⟩

/-- `Array.from(this.initializing).join(' -> ')` followed by
`-> serviceName`. -/
def cyclePathMsg (initializing : List String) (name : String) : String :=
  String.intercalate " -> " initializing ++ " -> " ++ name

/-- Outcome of an initialization step: resolution with the new state,
rejection with the new state and the error message, or fuel exhaustion. -/
inductive Res where
  | ok (st : RegState)
  | err (st : RegState) (msg : String)
  | fuelOut
deriving DecidableEq, Repr

/-- `true` exactly on resolution. -/
def Res.isOk : Res → Bool
  | .ok _ => true
  | _ => false

/-- The recursive `visit` of `topologicalSort`, merged with the `forEach`
over its worklist: a visited name is skipped; an unvisited one is marked
visited, its dependencies are visited depth-first, and it is then pushed on
the result.  Fuel decreases structurally on every step so that runs on
concrete registries compute definitionally. -/
def topoGo (reg : Reg) :
    Nat → List String → List String → List String →
    Option (List String × List String)
  | _, visited, result, [] => some (visited, result)
  | 0, _, _, _ :: _ => none
  | fuel + 1, visited, result, name :: rest =>
    if visited.contains name then
      topoGo reg fuel visited result rest
    else
      match topoGo reg fuel (name :: visited) result (depsOf reg name) with
      | none => none
      | some (v₂, r₂) => topoGo reg fuel v₂ (r₂ ++ [name]) rest

/-- A fuel budget large enough for every reachable `topologicalSort` call:
one visit per worklist entry plus one per registered name and declared
dependency. -/
def topoFuel (reg : Reg) (ds : List String) : Nat :=
  ds.length + (reg.services.map (fun p => p.2.length + 1)).sum + 1

/-- `topologicalSort(dependencies)`. -/
def topologicalSort (reg : Reg) (ds : List String) : Option (List String) :=
  (topoGo reg (topoFuel reg ds) [] [] ds).map (fun p => p.2)

/-- The three recursive entry points of the registry's initialization code:
an `initialize(name, { retries })` call, a `performInitialization(name)`
call, and the `for (const dep of sortedDeps)` dependency loop. -/
inductive RegCall where
  | auxC (st : RegState) (name : String) (retries : Nat)
  | perfC (st : RegState) (name : String)
  | depsC (st : RegState) (names : List String)

/-- One interpreter for the three mutually recursive registry routines,
structurally recursive on fuel so concrete runs compute definitionally.

* `auxC` is `initialize(serviceName, { retries })`: return early when
  already initialized; throw the circular-dependency error when the name is
  already in the in-progress set; throw when unregistered; otherwise mark
  in-progress and run `performInitialization`.  On success move the name to
  the initialized set and the initialization order; on failure the catch
  block removes the name from the in-progress set, counts the failure in
  `metrics.failures`, retries while attempts remain, and finally rethrows.
* `perfC` is `performInitialization(serviceName)`: topologically sort the
  declared dependencies, initialize each in order, then run the service's
  own `initialize()` (its resolution recorded by `Reg.selfInitOk`).
* `depsC` is the `for (const dep of sortedDeps) await this.initialize(dep)`
  loop; each iteration uses the default retry budget. -/
def regRun (reg : Reg) : Nat → RegCall → Res
  | 0, _ => .fuelOut
  | fuel + 1, c =>
    match c with
    | .auxC st name retries =>
      if st.initialized.contains name then
        .ok st
      else if st.initializing.contains name then
        .err st ("Circular dependency detected: " ++ cyclePathMsg st.initializing name)
      else if !(registered reg name) then
        .err st ("Service '" ++ name ++ "' not registered")
      else
        let st1 : RegState := { st with initializing := st.initializing ++ [name] }
        match regRun reg fuel (.perfC st1 name) with
        | .fuelOut => .fuelOut
        | .ok st2 =>
          .ok { st2 with
                  initialized := st2.initialized ++ [name]
                  initializing := st2.initializing.erase name
                  order := st2.order ++ [name] }
        | .err st2 msg =>
          let st3 : RegState :=
            { st2 with
                initializing := st2.initializing.erase name
                failures := st2.failures + 1 }
          match retries with
          | r' + 1 => regRun reg fuel (.auxC st3 name r')
          | 0 => .err st3 msg
    | .perfC st name =>
      match topologicalSort reg (depsOf reg name) with
      | none => .fuelOut
      | some sortedDeps =>
        match regRun reg fuel (.depsC st sortedDeps) with
        | .fuelOut => .fuelOut
        | .err st2 msg => .err st2 msg
        | .ok st2 =>
          if reg.selfInitOk name then .ok st2
          else .err st2 ("Service initialization failed: " ++ name)
    | .depsC st [] => .ok st
    | .depsC st (d :: rest) =>
      match regRun reg fuel (.auxC st d maxRetries) with
      | .fuelOut => .fuelOut
      | .err st' msg => .err st' msg
      | .ok st' => regRun reg fuel (.depsC st' rest)

/-- `initialize(serviceName, { retries })`. -/
def initAux (reg : Reg) (fuel : Nat) (st : RegState) (name : String) (retries : Nat) : Res :=
  regRun reg fuel (.auxC st name retries)

/-- `performInitialization(serviceName)`. -/
def performInit (reg : Reg) (fuel : Nat) (st : RegState) (name : String) : Res :=
  regRun reg fuel (.perfC st name)

/-- The dependency loop of `performInitialization`. -/
def initDeps (reg : Reg) (fuel : Nat) (st : RegState) (names : List String) : Res :=
  regRun reg fuel (.depsC st names)

/-- An external `initialize(name)` call with the default options. -/
def initializeSvc (reg : Reg) (fuel : Nat) (st : RegState) (name : String) : Res :=
  initAux reg fuel st name maxRetries

/-- The registered dependency cycle A→B→A, every service's own
`initialize()` resolving. -/
def cycleReg : Reg :=
  ⟨[("A", ["B"]), ("B", ["A"])], fun _ => true⟩

/-- Registry with service B depending on service A (for concrete runs). -/
def depReg : Reg :=
  ⟨[("A", ([] : List String)), ("B", ["A"])], fun _ => true⟩

/-- Follows the spec's words, for comparison with the code's
`massEstimatedPages`: "its cost is estimated as cityCount × typeCount
(default 50 if unspecified)" — the default applies only when a count is
absent, so a specified zero product stays zero. -/
def massEstimatedPagesSpec (cityCount typeCount : Option Nat) : Int :=
  match cityCount, typeCount with
  | some c, some t => ((c * t : Nat) : Int)
  | _, _ => 50

/-- A 2500-character text, the spec's translation-cost example. -/
def bigText : String := String.mk (List.replicate 2500 'a')

/-- Registry-state well-formedness: the initialized set and the recorded
initialization order list the same services.  It holds of `emptyState` and
is preserved by every initialization step. -/
def wfState (st : RegState) : Prop :=
  ∀ x, x ∈ st.initialized ↔ x ∈ st.order

/-- How a terminal initialization step relates its output state to its
input state: the in-progress set is restored, the initialized set only
grows, the order list only gets appended to, a service that was in progress
and not initialized on entry cannot have become initialized, and
well-formedness is preserved. -/
def Frame (st st' : RegState) : Prop :=
  st'.initializing = st.initializing
  ∧ (∀ x, x ∈ st.initialized → x ∈ st'.initialized)
  ∧ (∃ t, st'.order = st.order ++ t)
  ∧ (∀ x, x ∈ st.initializing → x ∉ st.initialized → x ∉ st'.initialized)
  ∧ (wfState st → wfState st')

/-! ## Theorems -/

/-! ### Cache lemmas -/

theorem mapGet_mapSet_self (m : CacheMap) (k : String) (v : JSValue) :
    mapGet (mapSet m k v) k = v := by
  induction m with
  | nil => simp [mapSet, mapGet]
  | cons hd tl ih =>
    obtain ⟨k', v'⟩ := hd
    by_cases h : k' = k <;> simp [mapSet, mapGet, h, ih]

theorem mapGet_of_no_key (m : CacheMap) (k : String) (h : mapHas m k = false) :
    mapGet m k = JSValue.undef := by
  induction m with
  | nil => simp [mapGet]
  | cons hd tl ih =>
    obtain ⟨k', v'⟩ := hd
    by_cases hk : k' = k
    · simp [mapHas, hk] at h
    · simp [mapHas, hk] at h
      simp [mapGet, hk, ih h]

/-- Claim C9 (counterexample): the async round-trip is not the identity —
storing the value `false` and reading it back through `getFromCacheAsync`
yields `null`, because the in-memory fallback returns
`memoryCache.get(key) || null` and `false` is falsy. -/
theorem claim9_counterexample :
    getFromCacheAsync (saveToCacheAsync [] "k" (JSValue.bool false)) "k" = JSValue.null
    ∧ JSValue.null ≠ JSValue.bool false := by
  exact ⟨rfl, by decide⟩

/-- Claim C9 (amended): the synchronous cache satisfies exact round-trip
identity and returns the `undefined` sentinel on a never-set key; the async
variant round-trips only up to truthiness — it returns the stored value
filtered through `|| null`, so truthy values come back exactly and falsy
stored values (and absent keys) come back as `null`. -/
theorem claim9_theorem :
    ∀ (m : CacheMap) (k : String) (v : JSValue),
      getFromCache (saveToCache m k v) k = v
      ∧ (mapHas m k = false → getFromCache m k = JSValue.undef)
      ∧ getFromCacheAsync (saveToCacheAsync m k v) k = jsOrVal v JSValue.null
      ∧ (mapHas m k = false → getFromCacheAsync m k = JSValue.null) := by
  intro m k v
  refine ⟨mapGet_mapSet_self m k v, fun h => mapGet_of_no_key m k h, ?_, fun h => ?_⟩
  · unfold getFromCacheAsync saveToCacheAsync
    rw [mapGet_mapSet_self]
  · unfold getFromCacheAsync
    rw [mapGet_of_no_key m k h]
    rfl

/-- Claim C9 (witness): concrete instance of the amended theorem, with the
absent-key hypotheses discharged on a one-entry cache. -/
theorem claim9_witness :
    getFromCache (saveToCache [("other", JSValue.num 7)] "k" (JSValue.str "v")) "k" =
      JSValue.str "v"
    ∧ getFromCache [("other", JSValue.num 7)] "k" = JSValue.undef
    ∧ getFromCacheAsync (saveToCacheAsync [("other", JSValue.num 7)] "k" (JSValue.str "v")) "k" =
      jsOrVal (JSValue.str "v") JSValue.null
    ∧ getFromCacheAsync [("other", JSValue.num 7)] "k" = JSValue.null := by
  have h := claim9_theorem [("other", JSValue.num 7)] "k" (JSValue.str "v")
  exact ⟨h.1, h.2.1 rfl, h.2.2.1, h.2.2.2 rfl⟩

/-- Claim C3 (counterexample): the cache key is not case-normalized at the
web/API origins — two requests differing only in letter case get different
keys — and the mass-generation origin produces a different key (lower-cased,
with the tenant id appended) than the API origin for the same parameters. -/
theorem claim3_counterexample :
    publicLandingCacheKey "Pizza" "en" "NYC" "restaurant" ≠
      publicLandingCacheKey "pizza" "en" "nyc" "restaurant"
    ∧ massGenCacheKey "pizza" "en" "nyc" "restaurant" "t1" ≠
      apiPagesCacheKey "pizza" "en" "nyc" "restaurant" := by
  constructor <;> decide

/-- Claim C3 (amended): the web-form and API origins compute the identical
key — the ordered dash-joined concatenation of industry, language, location
and type, with no case normalization — while the mass-generation origin
lower-cases that concatenation and appends the tenant id, so only the two
web origins collide on logically identical requests. -/
theorem claim3_theorem :
    ∀ industry lang location ty tenantId : String,
      apiPagesCacheKey industry lang location ty =
        publicLandingCacheKey industry lang location ty
      ∧ massGenCacheKey industry lang location ty tenantId =
        toLowerStr (publicLandingCacheKey industry lang location ty ++ ("-" ++ tenantId)) := by
  intro i l loc t tid
  refine ⟨rfl, ?_⟩
  unfold massGenCacheKey publicLandingCacheKey
  simp [String.append_assoc]

/-- Claim C10: the monthly reset leaves `imagesGeneratedThisMonth`
untouched — `validateImageGeneration` computes the same result on the
pre-reset and post-reset user — while a reset that fires zeroes exactly the
three schema counters. -/
theorem claim10_theorem :
    ∀ (now : MDate) (u : User) (limits : Limits) (params : OpParams),
      (resetUsageIfNeeded now u).1.imagesGeneratedThisMonth = u.imagesGeneratedThisMonth
      ∧ validateImageGeneration (resetUsageIfNeeded now u).1 limits params =
          validateImageGeneration u limits params
      ∧ ((resetUsageIfNeeded now u).2 = true →
          (resetUsageIfNeeded now u).1.generatedThisMonth = 0
          ∧ (resetUsageIfNeeded now u).1.apiCallsThisMonth = 0
          ∧ (resetUsageIfNeeded now u).1.translationsThisMonth = 0) := by
  intro now u limits params
  unfold resetUsageIfNeeded
  split
  · exact ⟨rfl, rfl, fun _ => ⟨rfl, rfl, rfl⟩⟩
  · exact ⟨rfl, rfl, fun h => by cases h⟩

/-! ### Usage-validator lemmas -/

theorem validateUsage_translation_run (now : MDate) (u : User) (p : Plan) (params : OpParams) :
    (validateUsage now u (some p) "ai_translation" params).result =
      validateTranslation (resetUsageIfNeeded now u).1 p.limits params := rfl

theorem validateUsage_mass_run (now : MDate) (u : User) (p : Plan) (params : OpParams) :
    (validateUsage now u (some p) "mass_generation" params).result =
      validateMassGeneration (resetUsageIfNeeded now u).1 p.limits params := rfl

/-- Claim C1 (counterexample): a plan whose `pagesPerMonth` is the `-1`
sentinel is denied by `validateUsage` even with a zero
`generatedThisMonth` counter — `remaining = -1 - 0 ≤ 0` — contradicting
"always returns allowed: true". -/
theorem claim1_counterexample :
    (validateUsage ⟨2025, 5⟩ ⟨0, 0, 0, none, ⟨2025, 5⟩⟩
        (some ⟨⟨-1, none, none, none, none, none, some (-1)⟩⟩)
        "page_generation" ⟨none, none, none, none, none⟩).result.allowed = false := rfl

/-- Claim C1 (amended): the usage validator has no unlimited sentinel —
`validatePageGeneration` denies every request under a `-1` page limit,
because `remaining = -1 - generatedThisMonth` is never positive.  The `-1`
sentinel is honored elsewhere: `checkGenerationLimit` (billing side)
returns `true` regardless of usage when `limits.monthlyGenerations` is
`-1`. -/
theorem claim1_theorem :
    (∀ (u : User) (limits : Limits) (params : OpParams),
      limits.pagesPerMonth = -1 →
      (validatePageGeneration u limits params).allowed = false)
    ∧ (∀ (now : MDate) (u : User) (plan : Plan),
      plan.limits.monthlyGenerations = some (-1) →
      checkGenerationLimit now u plan = true) := by
  constructor
  · intro u limits params h
    unfold validatePageGeneration
    rw [h]
    have hle : (-1 : Int) - (u.generatedThisMonth : Int) ≤ 0 := by omega
    simp [hle]
  · intro now u plan h
    unfold checkGenerationLimit
    rw [if_pos h]

/-- Claim C1 (witness): the amended theorem applied to a concrete free user
on a `-1`-limit plan (validator side) and to a heavy user on an
unlimited-`monthlyGenerations` plan (billing side). -/
theorem claim1_witness :
    (validatePageGeneration ⟨7, 0, 0, none, ⟨2025, 5⟩⟩
        ⟨-1, none, none, none, none, none, none⟩ ⟨none, none, none, none, none⟩).allowed = false
    ∧ checkGenerationLimit ⟨2025, 5⟩ ⟨999, 0, 0, none, ⟨2025, 5⟩⟩
        ⟨⟨-1, none, none, none, none, none, some (-1)⟩⟩ = true :=
  ⟨claim1_theorem.1 _ _ _ rfl, claim1_theorem.2 _ _ _ rfl⟩

/-- Claim C6: when the wall-clock month or year differs from the user's
`lastUsageReset`, `validateUsage` zeroes all three counters together,
stamps `lastUsageReset` with the current time, persists the reset
(`user.save()` is awaited), and evaluates the requested operation against
the plan limits using that reset user document. -/
theorem claim6_theorem :
    ∀ (now : MDate) (u : User) (plan : Option Plan) (opType : String) (params : OpParams),
      (now.month ≠ u.lastUsageReset.month ∨ now.year ≠ u.lastUsageReset.year) →
      validateUsage now u plan opType params =
        { result :=
            match plan with
            | none =>
              { allowed := false, reason := some "No valid plan found",
                remaining := 0, upgradeRequired := false, costUnits := none }
            | some p =>
              checkOperationLimits
                { u with generatedThisMonth := 0, apiCallsThisMonth := 0,
                         translationsThisMonth := 0, lastUsageReset := now }
                p opType params,
          user := { u with generatedThisMonth := 0, apiCallsThisMonth := 0,
                           translationsThisMonth := 0, lastUsageReset := now },
          saved := true } := by
  intro now u plan opType params h
  unfold validateUsage resetUsageIfNeeded
  rw [if_pos h]
  cases plan <;> rfl

/-- Claim C6 (witness): the month-rollover hypothesis discharged on a June
validation of a user last reset in May. -/
theorem claim6_witness :
    validateUsage ⟨2025, 6⟩ ⟨4, 2, 1, some 9, ⟨2025, 5⟩⟩
        (some ⟨⟨10, none, none, none, none, none, none⟩⟩)
        "page_generation" ⟨none, none, none, none, none⟩ =
      { result := checkOperationLimits ⟨0, 0, 0, some 9, ⟨2025, 6⟩⟩
          ⟨⟨10, none, none, none, none, none, none⟩⟩
          "page_generation" ⟨none, none, none, none, none⟩,
        user := ⟨0, 0, 0, some 9, ⟨2025, 6⟩⟩, saved := true } :=
  claim6_theorem ⟨2025, 6⟩ ⟨4, 2, 1, some 9, ⟨2025, 5⟩⟩ _ _ _ (by decide)

/-- Claim C7: through `validateUsage`, a translation request costs
`ceil(textLength / 1000)` units (reported back in `costUnits` whenever the
request is allowed), and is denied whenever that cost exceeds the remaining
translation quota — even when the remaining quota is still positive. -/
theorem claim7_theorem :
    ∀ (now : MDate) (u : User) (p : Plan) (params : OpParams),
      ((jsOrInt p.limits.translationsPerMonth (p.limits.pagesPerMonth * 5) -
          ((resetUsageIfNeeded now u).1.translationsThisMonth : Int)) <
          (((jsOrNat (params.text.map String.length) 0 + 999) / 1000 : Nat) : Int) →
        (validateUsage now u (some p) "ai_translation" params).result.allowed = false)
      ∧ ((validateUsage now u (some p) "ai_translation" params).result.allowed = true →
        (validateUsage now u (some p) "ai_translation" params).result.costUnits =
          some (((jsOrNat (params.text.map String.length) 0 + 999) / 1000 : Nat) : Int)) := by
  intro now u p params
  rw [validateUsage_translation_run]
  unfold validateTranslation
  dsimp only
  set rem := jsOrInt p.limits.translationsPerMonth (p.limits.pagesPerMonth * 5) -
    ((resetUsageIfNeeded now u).1.translationsThisMonth : Int) with hrem
  set cost := (((jsOrNat (Option.map String.length params.text) 0 + 999) / 1000 : Nat) : Int)
    with hcost
  constructor
  · intro hlt
    by_cases h1 : rem ≤ 0
    · rw [if_pos h1]
    · rw [if_neg h1, if_pos hlt]
  · intro hall
    by_cases h1 : rem ≤ 0
    · rw [if_pos h1] at hall
      cases hall
    · by_cases h2 : rem < cost
      · rw [if_neg h1, if_pos h2] at hall
        cases hall
      · rw [if_neg h1, if_neg h2]

/-- Claim C7 (witness): the spec's example — a 2500-character text costs 3
units and is denied against a remaining quota of 2. -/
theorem claim7_witness :
    (validateUsage ⟨2025, 5⟩ ⟨0, 0, 0, none, ⟨2025, 5⟩⟩
        (some ⟨⟨100, none, none, some 2, none, none, none⟩⟩)
        "ai_translation" ⟨none, none, some bigText, none, none⟩).result.allowed = false := by
  apply (claim7_theorem ⟨2025, 5⟩ ⟨0, 0, 0, none, ⟨2025, 5⟩⟩
    ⟨⟨100, none, none, some 2, none, none, none⟩⟩ ⟨none, none, some bigText, none, none⟩).1
  have hlen : bigText.length = 2500 := by
    show (List.replicate 2500 'a').length = 2500
    rw [List.length_replicate]
  have h2 : jsOrNat (Option.map String.length (some bigText)) 0 = 2500 := by
    simp [jsOrNat, hlen]
  rw [h2]
  decide

/-- Claim C8 (counterexample): with `cityCount = 0` specified, the code's
`cityCount * typeCount || 50` falls back to 50 because the product `0` is
falsy, so an enterprise request with 10 pages remaining is denied even
though the spec-worded estimate (`cityCount × typeCount`, defaulting only
when unspecified) is `0 ≤ 10`. -/
theorem claim8_counterexample :
    (validateUsage ⟨2025, 5⟩ ⟨0, 0, 0, none, ⟨2025, 5⟩⟩
        (some ⟨⟨10, none, none, none, none, some "enterprise", none⟩⟩)
        "mass_generation" ⟨none, none, none, some 0, some 1⟩).result.allowed = false
    ∧ massEstimatedPagesSpec (some 0) (some 1) = 0 := ⟨rfl, rfl⟩

/-- Claim C8 (amended): mass generation is denied on any non-enterprise
plan independently of quota; on an enterprise plan it is allowed exactly
when the remaining page quota covers the code's estimate
`cityCount * typeCount || 50`, which falls back to 50 both when a count is
unspecified and when the specified product is zero. -/
theorem claim8_theorem :
    ∀ (now : MDate) (u : User) (p : Plan) (params : OpParams),
      (p.limits.planLevel ≠ some "enterprise" →
        (validateUsage now u (some p) "mass_generation" params).result.allowed = false)
      ∧ (p.limits.planLevel = some "enterprise" →
        ((validateUsage now u (some p) "mass_generation" params).result.allowed = true ↔
          massEstimatedPages params.cityCount params.typeCount ≤
            p.limits.pagesPerMonth -
              ((resetUsageIfNeeded now u).1.generatedThisMonth : Int))) := by
  intro now u p params
  rw [validateUsage_mass_run]
  unfold validateMassGeneration
  constructor
  · intro hne
    rw [if_pos hne]
  · intro he
    rw [if_neg (by simp [he])]
    dsimp only
    split
    · rename_i hlt
      simp only [Bool.false_eq_true, false_iff]
      omega
    · rename_i hge
      simp only [true_iff]
      omega

/-- Claim C8 (witness): both hypotheses of the amended theorem discharged —
a free-plan request is denied, and an unspecified-count enterprise request
with 100 pages remaining is allowed exactly because `50 ≤ 100`. -/
theorem claim8_witness :
    (validateUsage ⟨2025, 5⟩ ⟨0, 0, 0, none, ⟨2025, 5⟩⟩
        (some ⟨⟨100, none, none, none, none, some "free", none⟩⟩)
        "mass_generation" ⟨none, none, none, none, none⟩).result.allowed = false
    ∧ ((validateUsage ⟨2025, 5⟩ ⟨0, 0, 0, none, ⟨2025, 5⟩⟩
        (some ⟨⟨100, none, none, none, none, some "enterprise", none⟩⟩)
        "mass_generation" ⟨none, none, none, none, none⟩).result.allowed = true ↔
      massEstimatedPages none none ≤ (100 : Int) - ((0 : Nat) : Int)) := by
  constructor
  · exact (claim8_theorem ⟨2025, 5⟩ ⟨0, 0, 0, none, ⟨2025, 5⟩⟩
      ⟨⟨100, none, none, none, none, some "free", none⟩⟩ ⟨none, none, none, none, none⟩).1
      (by decide)
  · exact (claim8_theorem ⟨2025, 5⟩ ⟨0, 0, 0, none, ⟨2025, 5⟩⟩
      ⟨⟨100, none, none, none, none, some "enterprise", none⟩⟩ ⟨none, none, none, none, none⟩).2
      rfl

/-! ### Registry lemmas: topological sort -/

/-- Everything `topoGo` ever pushes or keeps: visited names persist, the
worklist ends up visited, and the result accounts exactly for the initial
result plus the freshly visited names. -/
theorem topoGo_props (reg : Reg) : ∀ (fuel : Nat) (v r ds v' r' : List String),
    topoGo reg fuel v r ds = some (v', r') →
    (∀ x ∈ v, x ∈ v') ∧ (∀ d ∈ ds, d ∈ v')
    ∧ (∀ x, x ∈ r' ↔ x ∈ r ∨ (x ∈ v' ∧ x ∉ v)) := by
  intro fuel
  induction fuel with
  | zero =>
    intro v r ds v' r' h
    cases ds with
    | nil =>
      simp only [topoGo, Option.some.injEq, Prod.mk.injEq] at h
      obtain ⟨rfl, rfl⟩ := h
      exact ⟨fun x hx => hx, fun d hd => absurd hd (List.not_mem_nil d), by
        intro x
        simp⟩
    | cons name rest => simp [topoGo] at h
  | succ f ih =>
    intro v r ds v' r' h
    cases ds with
    | nil =>
      simp only [topoGo, Option.some.injEq, Prod.mk.injEq] at h
      obtain ⟨rfl, rfl⟩ := h
      exact ⟨fun x hx => hx, fun d hd => absurd hd (List.not_mem_nil d), by
        intro x
        simp⟩
    | cons name rest =>
      rw [topoGo] at h
      by_cases hv : v.contains name
      · rw [if_pos hv] at h
        obtain ⟨hmono, hwl, hacc⟩ := ih v r rest v' r' h
        have hnv : name ∈ v := by simpa using hv
        refine ⟨hmono, ?_, hacc⟩
        intro d hd
        rcases List.mem_cons.mp hd with rfl | hd'
        · exact hmono d hnv
        · exact hwl d hd'
      · rw [if_neg hv] at h
        have hnv : name ∉ v := by simpa using hv
        cases heq : topoGo reg f (name :: v) r (depsOf reg name) with
        | none => rw [heq] at h; cases h
        | some p =>
          obtain ⟨v₂, r₂⟩ := p
          rw [heq] at h
          try dsimp only at h
          obtain ⟨hmono₁, hdep₁, hacc₁⟩ := ih (name :: v) r (depsOf reg name) v₂ r₂ heq
          obtain ⟨hmono₂, hwl₂, hacc₂⟩ := ih v₂ (r₂ ++ [name]) rest v' r' h
          have hnvv : name ∈ v' := hmono₂ name (hmono₁ name (List.mem_cons_self name v))
          refine ⟨fun x hx => hmono₂ x (hmono₁ x (List.mem_cons_of_mem name hx)), ?_, ?_⟩
          · intro d hd
            rcases List.mem_cons.mp hd with rfl | hd'
            · exact hnvv
            · exact hwl₂ d hd'
          · intro x
            constructor
            · intro hx
              rcases (hacc₂ x).mp hx with hx' | ⟨hxv', hxv₂⟩
              · rcases List.mem_append.mp hx' with hx₂ | hxn
                · rcases (hacc₁ x).mp hx₂ with hxr | ⟨hxv₂, hxnc⟩
                  · exact Or.inl hxr
                  · refine Or.inr ⟨hmono₂ x hxv₂, fun hxv => hxnc (List.mem_cons_of_mem name hxv)⟩
                · have : x = name := List.mem_singleton.mp hxn
                  subst this
                  exact Or.inr ⟨hnvv, hnv⟩
              · refine Or.inr ⟨hxv', fun hxv => hxv₂ (hmono₁ x (List.mem_cons_of_mem name hxv))⟩
            · intro hx
              rcases hx with hxr | ⟨hxv', hxnv⟩
              · exact (hacc₂ x).mpr (Or.inl (List.mem_append_left _ ((hacc₁ x).mpr (Or.inl hxr))))
              · by_cases hxn : x = name
                · subst hxn
                  exact (hacc₂ x).mpr (Or.inl (List.mem_append_right _ (List.mem_singleton.mpr rfl)))
                · by_cases hxv₂ : x ∈ v₂
                  · refine (hacc₂ x).mpr (Or.inl (List.mem_append_left _ ?_))
                    refine (hacc₁ x).mpr (Or.inr ⟨hxv₂, ?_⟩)
                    intro hc
                    rcases List.mem_cons.mp hc with rfl | hc'
                    · exact hxn rfl
                    · exact hxnv hc'
                  · exact (hacc₂ x).mpr (Or.inr ⟨hxv', hxv₂⟩)

/-- Every declared dependency appears in the topological sort that
`performInitialization` iterates over. -/
theorem topoSort_mem (reg : Reg) (ds sorted : List String)
    (h : topologicalSort reg ds = some sorted) : ∀ d ∈ ds, d ∈ sorted := by
  intro d hd
  unfold topologicalSort at h
  cases heq : topoGo reg (topoFuel reg ds) [] [] ds with
  | none => rw [heq] at h; cases h
  | some p =>
    rw [heq] at h
    simp only [Option.map_some', Option.some.injEq] at h
    subst h
    obtain ⟨_, hwl, hacc⟩ := topoGo_props reg _ _ _ _ _ _ heq
    exact (hacc d).mpr (Or.inr ⟨hwl d hd, List.not_mem_nil d⟩)

/-! ### Registry lemmas: frame properties of initialization -/

theorem Frame.refl (st : RegState) : Frame st st :=
  ⟨rfl, fun _ h => h, ⟨[], (List.append_nil st.order).symm⟩, fun _ _ h => h, id⟩

theorem Frame.trans {a b c : RegState} (h₁ : Frame a b) (h₂ : Frame b c) : Frame a c := by
  obtain ⟨i₁, m₁, ⟨t₁, o₁⟩, n₁, w₁⟩ := h₁
  obtain ⟨i₂, m₂, ⟨t₂, o₂⟩, n₂, w₂⟩ := h₂
  refine ⟨i₂.trans i₁, fun x hx => m₂ x (m₁ x hx), ⟨t₁ ++ t₂, ?_⟩, ?_, fun hw => w₂ (w₁ hw)⟩
  · rw [o₂, o₁, List.append_assoc]
  · intro x hx hnx
    have hxb : x ∈ b.initializing := i₁ ▸ hx
    have hnxb : x ∉ b.initialized := n₁ x hx hnx
    exact n₂ x hxb hnxb

theorem erase_append_self (l : List String) (a : String) (h : a ∉ l) :
    (l ++ [a]).erase a = l := by
  rw [List.erase_append_right _ h, List.erase_cons_head, List.append_nil]

/-- The catch block's state bookkeeping composed with the frame of the
failed `performInitialization` run yields a frame from the original state. -/
theorem frame_after_catch (st st2 : RegState) (name : String)
    (hni : name ∉ st.initializing)
    (hF : Frame { st with initializing := st.initializing ++ [name] } st2) :
    Frame st { st2 with initializing := st2.initializing.erase name,
                        failures := st2.failures + 1 } := by
  obtain ⟨hI, hM, ⟨t, hO⟩, hN, hW⟩ := hF
  refine ⟨?_, hM, ⟨t, hO⟩, ?_, hW⟩
  · show st2.initializing.erase name = st.initializing
    rw [hI]
    exact erase_append_self st.initializing name hni
  · intro x hx hnx
    exact hN x (List.mem_append_left _ hx) hnx

/-- The success bookkeeping (move the service to the initialized set and
the order list) composed with the frame of its `performInitialization`
run. -/
theorem frame_after_ok (st st2 : RegState) (name : String)
    (hni : name ∉ st.initializing)
    (hF : Frame { st with initializing := st.initializing ++ [name] } st2) :
    Frame st { st2 with initialized := st2.initialized ++ [name],
                        initializing := st2.initializing.erase name,
                        order := st2.order ++ [name] }
    ∧ name ∈ st2.initialized ++ [name] := by
  obtain ⟨hI, hM, ⟨t, hO⟩, hN, hW⟩ := hF
  refine ⟨⟨?_, ?_, ⟨t ++ [name], ?_⟩, ?_, ?_⟩, ?_⟩
  · show st2.initializing.erase name = st.initializing
    rw [hI]
    exact erase_append_self st.initializing name hni
  · intro x hx
    exact List.mem_append_left _ (hM x hx)
  · show st2.order ++ [name] = st.order ++ (t ++ [name])
    rw [hO, List.append_assoc]
  · intro x hx hnx
    have hxne : x ≠ name := fun he => hni (he ▸ hx)
    have hx2 : x ∉ st2.initialized := hN x (List.mem_append_left _ hx) hnx
    intro hc
    rcases List.mem_append.mp hc with hc' | hc'
    · exact hx2 hc'
    · exact hxne (List.mem_singleton.mp hc')
  · intro hw
    have hw2 : wfState st2 := hW hw
    intro y
    show y ∈ st2.initialized ++ [name] ↔ y ∈ st2.order ++ [name]
    simp only [List.mem_append]
    exact or_congr (hw2 y) Iff.rfl
  · exact List.mem_append_right _ (List.mem_singleton.mpr rfl)

/-- Every terminal initialization step is a `Frame` step, successful
`initialize` calls leave their service initialized, a successful dependency
loop leaves every listed dependency initialized, and a successful
`performInitialization` leaves every declared dependency initialized. -/
theorem regRun_frames (reg : Reg) : ∀ fuel : Nat,
    (∀ st name r st' msg, regRun reg fuel (.auxC st name r) = .err st' msg → Frame st st')
    ∧ (∀ st name r st', regRun reg fuel (.auxC st name r) = .ok st' →
        Frame st st' ∧ name ∈ st'.initialized)
    ∧ (∀ st name st' msg, regRun reg fuel (.perfC st name) = .err st' msg → Frame st st')
    ∧ (∀ st name st', regRun reg fuel (.perfC st name) = .ok st' →
        Frame st st' ∧ ∀ d ∈ depsOf reg name, d ∈ st'.initialized)
    ∧ (∀ st ds st' msg, regRun reg fuel (.depsC st ds) = .err st' msg → Frame st st')
    ∧ (∀ st ds st', regRun reg fuel (.depsC st ds) = .ok st' →
        Frame st st' ∧ ∀ d ∈ ds, d ∈ st'.initialized) := by
  intro fuel
  induction fuel with
  | zero =>
    refine ⟨?_, ?_, ?_, ?_, ?_, ?_⟩
    · intro st name r st' msg h; simp [regRun] at h
    · intro st name r st' h; simp [regRun] at h
    · intro st name st' msg h; simp [regRun] at h
    · intro st name st' h; simp [regRun] at h
    · intro st ds st' msg h; simp [regRun] at h
    · intro st ds st' h; simp [regRun] at h
  | succ f ih =>
    obtain ⟨ihAE, ihAO, ihPE, ihPO, ihDE, ihDO⟩ := ih
    refine ⟨?_, ?_, ?_, ?_, ?_, ?_⟩
    · -- initialize rejects
      intro st name r st' msg h
      simp only [regRun] at h
      try dsimp only at h
      by_cases h1 : st.initialized.contains name
      · rw [if_pos h1] at h; simp at h
      · rw [if_neg h1] at h
        by_cases h2 : st.initializing.contains name
        · rw [if_pos h2] at h
          injection h with hst _
          subst hst
          exact Frame.refl st
        · rw [if_neg h2] at h
          have hni : name ∉ st.initializing := by simpa using h2
          by_cases h3 : !(registered reg name)
          · rw [if_pos h3] at h
            injection h with hst _
            subst hst
            exact Frame.refl st
          · rw [if_neg h3] at h
            try dsimp only at h
            cases heq : regRun reg f
                (.perfC { st with initializing := st.initializing ++ [name] } name) with
            | fuelOut => rw [heq] at h; simp at h
            | ok st2 => rw [heq] at h; dsimp only at h; simp at h
            | err st2 msg2 =>
              rw [heq] at h
              try dsimp only at h
              have hF2 := frame_after_catch st st2 name hni (ihPE _ _ _ _ heq)
              cases r with
              | succ r' =>
                try dsimp only at h
                exact Frame.trans hF2 (ihAE _ _ _ _ _ h)
              | zero =>
                try dsimp only at h
                injection h with hst _
                subst hst
                exact hF2
    · -- initialize resolves
      intro st name r st' h
      simp only [regRun] at h
      try dsimp only at h
      by_cases h1 : st.initialized.contains name
      · rw [if_pos h1] at h
        injection h with hst
        subst hst
        exact ⟨Frame.refl st, by simpa using h1⟩
      · rw [if_neg h1] at h
        by_cases h2 : st.initializing.contains name
        · rw [if_pos h2] at h; simp at h
        · rw [if_neg h2] at h
          have hni : name ∉ st.initializing := by simpa using h2
          by_cases h3 : !(registered reg name)
          · rw [if_pos h3] at h; simp at h
          · rw [if_neg h3] at h
            try dsimp only at h
            cases heq : regRun reg f
                (.perfC { st with initializing := st.initializing ++ [name] } name) with
            | fuelOut => rw [heq] at h; simp at h
            | ok st2 =>
              rw [heq] at h
              try dsimp only at h
              injection h with hst
              subst hst
              exact frame_after_ok st st2 name hni (ihPO _ _ _ heq).1
            | err st2 msg2 =>
              rw [heq] at h
              try dsimp only at h
              have hF2 := frame_after_catch st st2 name hni (ihPE _ _ _ _ heq)
              cases r with
              | succ r' =>
                try dsimp only at h
                have hrec := ihAO _ _ _ _ h
                exact ⟨Frame.trans hF2 hrec.1, hrec.2⟩
              | zero => dsimp only at h; simp at h
    · -- performInitialization rejects
      intro st name st' msg h
      simp only [regRun] at h
      try dsimp only at h
      cases hts : topologicalSort reg (depsOf reg name) with
      | none => rw [hts] at h; simp at h
      | some sorted =>
        rw [hts] at h
        try dsimp only at h
        cases heq : regRun reg f (.depsC st sorted) with
        | fuelOut => rw [heq] at h; simp at h
        | err st2 m2 =>
          rw [heq] at h
          try dsimp only at h
          injection h with hst _
          subst hst
          exact ihDE _ _ _ _ heq
        | ok st2 =>
          rw [heq] at h
          try dsimp only at h
          by_cases hs : reg.selfInitOk name
          · rw [if_pos hs] at h; simp at h
          · rw [if_neg hs] at h
            injection h with hst _
            subst hst
            exact (ihDO _ _ _ heq).1
    · -- performInitialization resolves
      intro st name st' h
      simp only [regRun] at h
      try dsimp only at h
      cases hts : topologicalSort reg (depsOf reg name) with
      | none => rw [hts] at h; simp at h
      | some sorted =>
        rw [hts] at h
        try dsimp only at h
        cases heq : regRun reg f (.depsC st sorted) with
        | fuelOut => rw [heq] at h; simp at h
        | err st2 m2 => rw [heq] at h; dsimp only at h; simp at h
        | ok st2 =>
          rw [heq] at h
          try dsimp only at h
          by_cases hs : reg.selfInitOk name
          · rw [if_pos hs] at h
            injection h with hst
            subst hst
            refine ⟨(ihDO _ _ _ heq).1, fun d hd => ?_⟩
            exact (ihDO _ _ _ heq).2 d (topoSort_mem reg _ _ hts d hd)
          · rw [if_neg hs] at h; simp at h
    · -- dependency loop rejects
      intro st ds st' msg h
      cases ds with
      | nil => simp only [regRun] at h; simp at h
      | cons d rest =>
        simp only [regRun] at h
        try dsimp only at h
        cases heq : regRun reg f (.auxC st d maxRetries) with
        | fuelOut => rw [heq] at h; simp at h
        | err st1 m1 =>
          rw [heq] at h
          try dsimp only at h
          injection h with hst _
          subst hst
          exact ihAE _ _ _ _ _ heq
        | ok st1 =>
          rw [heq] at h
          try dsimp only at h
          exact Frame.trans (ihAO _ _ _ _ heq).1 (ihDE _ _ _ _ h)
    · -- dependency loop resolves
      intro st ds st' h
      cases ds with
      | nil =>
        simp only [regRun] at h
        injection h with hst
        subst hst
        exact ⟨Frame.refl st, fun d hd => absurd hd (List.not_mem_nil d)⟩
      | cons d rest =>
        simp only [regRun] at h
        try dsimp only at h
        cases heq : regRun reg f (.auxC st d maxRetries) with
        | fuelOut => rw [heq] at h; simp at h
        | err st1 m1 => rw [heq] at h; dsimp only at h; simp at h
        | ok st1 =>
          rw [heq] at h
          try dsimp only at h
          have hA := ihAO _ _ _ _ heq
          have hD := ihDO _ _ _ h
          refine ⟨Frame.trans hA.1 hD.1, fun x hx => ?_⟩
          rcases List.mem_cons.mp hx with rfl | hx'
          · exact hD.1.2.1 x hA.2
          · exact hD.2 x hx'

/-- Claim C5: for any registry and any service `b` declaring a dependency
on `a`, whenever an `initialize(b)` call resolves from a well-formed state
in which `b` was not yet initialized, `a` is initialized in the final state
and `a`'s completion precedes `b`'s in the recorded initialization order:
the dependency loop awaits every dependency to resolution before the
dependent service's own initialization completes. -/
theorem claim5_theorem :
    ∀ (reg : Reg) (fuel : Nat) (st : RegState) (b : String) (r : Nat)
      (st' : RegState) (a : String),
      wfState st → b ∉ st.initialized → a ∈ depsOf reg b →
      initAux reg fuel st b r = Res.ok st' →
      a ∈ st'.initialized ∧ st'.order.indexOf a < st'.order.indexOf b := by
  intro reg fuel
  induction fuel with
  | zero =>
    intro st b r st' a _ _ _ h
    simp [initAux, regRun] at h
  | succ f ih =>
    intro st b r st' a hwf hbni hdep h
    obtain ⟨fAE, fAO, fPE, fPO, fDE, fDO⟩ := regRun_frames reg f
    simp only [initAux, regRun] at h
    try dsimp only at h
    by_cases h1 : st.initialized.contains b
    · exact absurd (show b ∈ st.initialized by simpa using h1) hbni
    · rw [if_neg h1] at h
      by_cases h2 : st.initializing.contains b
      · rw [if_pos h2] at h; simp at h
      · rw [if_neg h2] at h
        have hni : b ∉ st.initializing := by simpa using h2
        by_cases h3 : !(registered reg b)
        · rw [if_pos h3] at h; simp at h
        · rw [if_neg h3] at h
          try dsimp only at h
          cases heq : regRun reg f
              (.perfC { st with initializing := st.initializing ++ [b] } b) with
          | fuelOut => rw [heq] at h; simp at h
          | ok st2 =>
            rw [heq] at h
            try dsimp only at h
            injection h with hst
            subst hst
            have hPO := fPO _ _ _ heq
            have ha2 : a ∈ st2.initialized := hPO.2 a hdep
            have hwf1 : wfState { st with initializing := st.initializing ++ [b] } := hwf
            have hwf2 : wfState st2 := hPO.1.2.2.2.2 hwf1
            have hb2 : b ∉ st2.initialized :=
              hPO.1.2.2.2.1 b (List.mem_append_right _ (List.mem_singleton.mpr rfl)) hbni
            have hbo2 : b ∉ st2.order := fun hc => hb2 ((hwf2 b).mpr hc)
            have hao2 : a ∈ st2.order := (hwf2 a).mp ha2
            constructor
            · exact List.mem_append_left _ ha2
            · show (st2.order ++ [b]).indexOf a < (st2.order ++ [b]).indexOf b
              rw [List.indexOf_append_of_mem hao2, List.indexOf_append_of_not_mem hbo2,
                List.indexOf_cons_self]
              have hlt : List.indexOf a st2.order < st2.order.length :=
                List.indexOf_lt_length.mpr hao2
              omega
          | err st2 msg2 =>
            rw [heq] at h
            try dsimp only at h
            cases r with
            | succ r' =>
              try dsimp only at h
              have hF2 := frame_after_catch st st2 b hni (fPE _ _ _ _ heq)
              have hb3 : b ∉ st2.initialized :=
                (fPE _ _ _ _ heq).2.2.2.1 b
                  (List.mem_append_right _ (List.mem_singleton.mpr rfl)) hbni
              exact ih _ _ _ _ _ (hF2.2.2.2.2 hwf) hb3 hdep h
            | zero =>
              try dsimp only at h
              simp at h

/-- Claim C5 (witness): the theorem applied to the concrete registry where
B depends on A, run from the empty state — A completes before B. -/
theorem claim5_witness :
    "A" ∈ (RegState.mk ["A", "B"] [] 0 ["A", "B"]).initialized
    ∧ (RegState.mk ["A", "B"] [] 0 ["A", "B"]).order.indexOf "A" <
      (RegState.mk ["A", "B"] [] 0 ["A", "B"]).order.indexOf "B" :=
  claim5_theorem depReg 20 emptyState "B" maxRetries ⟨["A", "B"], [], 0, ["A", "B"]⟩ "A"
    (fun _ => Iff.rfl) (List.not_mem_nil "B") (by decide) rfl

/-! ### Registry lemmas: the concrete A→B→A cycle -/

/-- On the registered cycle A→B→A, every `initialize('A')` attempt fails
with the circular-dependency error raised by the dependency loop, the catch
block counts one failure per attempt and retries, and after `r` retries the
call rejects with the cycle error and `r + 1` recorded failures. -/
theorem cycleRun : ∀ (r k fuel : Nat), r + 4 ≤ fuel →
    initAux cycleReg fuel ⟨[], [], k, []⟩ "A" r =
      Res.err ⟨[], [], k + r + 1, []⟩ "Circular dependency detected: A -> A" := by
  intro r
  induction r with
  | zero =>
    intro k fuel h
    obtain ⟨g, rfl⟩ : ∃ g, fuel = g + 4 := ⟨fuel - 4, by omega⟩
    rfl
  | succ s ih =>
    intro k fuel h
    obtain ⟨g, rfl⟩ : ∃ g, fuel = g + 4 := ⟨fuel - 4, by omega⟩
    have step : initAux cycleReg (g + 4) ⟨[], [], k, []⟩ "A" (s + 1) =
        initAux cycleReg (g + 3) ⟨[], [], k + 1, []⟩ "A" s := rfl
    rw [step]
    have e : k + (s + 1) + 1 = (k + 1) + s + 1 := by omega
    rw [e]
    exact ih (k + 1) (g + 3) (by omega)

/-- On the registered cycle A→B→A, no fuel budget and no retry budget make
`initialize('A')` resolve: every attempt hits the in-progress set. -/
theorem cycleNeverOk : ∀ (fuel k r : Nat),
    Res.isOk (initAux cycleReg fuel ⟨[], [], k, []⟩ "A" r) = false := by
  intro fuel
  induction fuel using Nat.strong_induction_on with
  | _ fuel ih =>
    intro k r
    match fuel with
    | 0 => rfl
    | 1 => rfl
    | 2 => rfl
    | 3 => rfl
    | g + 4 =>
      match r with
      | 0 => rfl
      | s + 1 =>
        have step : initAux cycleReg (g + 4) ⟨[], [], k, []⟩ "A" (s + 1) =
            initAux cycleReg (g + 3) ⟨[], [], k + 1, []⟩ "A" s := rfl
        rw [step]
        exact ih (g + 3) (by omega) (k + 1) s

/-- Claim C2 (counterexample): on the registered cycle A→B→A, an
`initialize('A')` call with the default retry budget records four failed
attempts (`metrics.failures = 4`) before the circular-dependency error
reaches the caller — the failure is retried three times, not zero. -/
theorem claim2_counterexample :
    initializeSvc cycleReg 20 emptyState "A" =
      Res.err ⟨[], [], 4, []⟩ "Circular dependency detected: A -> A"
    ∧ (4 : Nat) ≠ 1 := ⟨rfl, by decide⟩

/-- Claim C2 (amended): only the circular-dependency error thrown directly
by the in-progress check — a call on a service already being initialized —
escapes before the retry machinery, leaving the state untouched; when the
circular error surfaces from the dependency loop inside
`performInitialization`, the enclosing catch retries it like any other
failure, so on a registered cycle A→B→A the call makes `retries + 1` failed
attempts before propagating the circular error. -/
theorem claim2_theorem :
    (∀ (reg : Reg) (fuel : Nat) (st : RegState) (name : String) (r : Nat),
      name ∉ st.initialized →
      name ∈ st.initializing →
      initAux reg (fuel + 1) st name r =
        Res.err st ("Circular dependency detected: " ++ cyclePathMsg st.initializing name))
    ∧ (∀ (r k fuel : Nat), r + 4 ≤ fuel →
      initAux cycleReg fuel ⟨[], [], k, []⟩ "A" r =
        Res.err ⟨[], [], k + r + 1, []⟩ "Circular dependency detected: A -> A") := by
  constructor
  · intro reg fuel st name r h1 h2
    simp [initAux, regRun, h1, h2]
  · exact cycleRun

/-- Claim C2 (witness): the amended theorem applied to a re-entrant call on
an in-progress service (no state change, no retry) and to the concrete
cycle run (four attempts recorded). -/
theorem claim2_witness :
    initAux cycleReg 7 ⟨[], ["X"], 0, []⟩ "X" 5 =
      Res.err ⟨[], ["X"], 0, []⟩
        ("Circular dependency detected: " ++ cyclePathMsg ["X"] "X")
    ∧ initAux cycleReg 20 ⟨[], [], 0, []⟩ "A" 3 =
      Res.err ⟨[], [], 4, []⟩ "Circular dependency detected: A -> A" :=
  ⟨claim2_theorem.1 cycleReg 6 ⟨[], ["X"], 0, []⟩ "X" 5 (by decide) (by decide),
   claim2_theorem.2 3 0 20 (by omega)⟩

/-- Claim C4: on the registered dependency cycle A→B→A, `initialize('A')`
with the default options always terminates in a rejection carrying the
cycle-identifying error message, and no fuel or retry budget ever lets it
resolve successfully. -/
theorem claim4_theorem :
    ∀ fuel : Nat,
      (7 ≤ fuel →
        initializeSvc cycleReg fuel emptyState "A" =
          Res.err ⟨[], [], 4, []⟩ "Circular dependency detected: A -> A")
      ∧ (∀ k r : Nat, Res.isOk (initAux cycleReg fuel ⟨[], [], k, []⟩ "A" r) = false) := by
  intro fuel
  refine ⟨fun h => ?_, fun k r => cycleNeverOk fuel k r⟩
  exact cycleRun 3 0 fuel (by omega)

/-- Claim C4 (witness): the fuel-threshold hypothesis discharged at a
concrete budget. -/
theorem claim4_witness :
    initializeSvc cycleReg 9 emptyState "A" =
      Res.err ⟨[], [], 4, []⟩ "Circular dependency detected: A -> A"
    ∧ Res.isOk (initAux cycleReg 9 ⟨[], [], 5, []⟩ "A" 2) = false :=
  ⟨(claim4_theorem 9).1 (by omega), (claim4_theorem 9).2 5 2⟩

/-- Claim C10 (witness): the reset-fired hypothesis discharged on a user
whose last reset was the previous month. -/
theorem claim10_witness :
    (resetUsageIfNeeded ⟨2025, 6⟩ ⟨4, 2, 1, some 9, ⟨2025, 5⟩⟩).1.imagesGeneratedThisMonth =
      (⟨4, 2, 1, some 9, ⟨2025, 5⟩⟩ : User).imagesGeneratedThisMonth
    ∧ (resetUsageIfNeeded ⟨2025, 6⟩ ⟨4, 2, 1, some 9, ⟨2025, 5⟩⟩).1.generatedThisMonth = 0 := by
  have h := claim10_theorem ⟨2025, 6⟩ ⟨4, 2, 1, some 9, ⟨2025, 5⟩⟩
    ⟨10, none, none, none, none, none, none⟩ ⟨none, none, none, none, none⟩
  exact ⟨h.1, (h.2.2 (by decide)).1⟩

end AiLanding
